import Mathlib

/-!
Shallow embedding of the ovn-central charm code relevant to the cluster
management claims.  Python strings are modelled as `List Char`, dictionaries
as insertion-ordered association lists, subprocess and cluster-status queries
as explicit oracles, and exceptions as `Except`.
-/

set_option maxRecDepth 4096

deriving instance DecidableEq for Except

namespace OvnCentral

/-- Model of the subset of charmhelpers OVNClusterStatus used by the charm:
leadership flag, the Raft election timer in milliseconds, and the list of
servers as pairs of short server id and connection url. -/
structure OVNClusterStatus where
  is_cluster_leader : Bool
  election_timer : Nat
  servers : List (List Char × List Char)
deriving DecidableEq

/-! Embedding of actions/cluster.py -/

/-- Python str.split on a colon separator, as used by url.split in
the function url_to_ip below. -/
def splitOnColon : List Char → List (List Char)
  | [] => [[]]
  | c :: cs =>
    if c = ':' then [] :: splitOnColon cs
    else
      match splitOnColon cs with
      | [] => [[c]]
      | g :: gs => (c :: g) :: gs

/-- Python ":".join on a list of character groups. -/
def joinColon : List (List Char) → List Char
  | [] => []
  | [g] => g
  | g :: g2 :: gs => g ++ ':' :: joinColon (g2 :: gs)

/-- Embedding of cluster.py url_to_ip.  The charmhelpers validity check
ch_ip.is_ip is external to the repository and is passed in as an oracle.
The error value models StatusParsingException. -/
def url_to_ip (is_ip : List Char → Bool) (cluster_url : List Char) :
    Except Unit (List Char) :=
  let ip_portion := ((splitOnColon cluster_url).drop 1).dropLast
  let ip_str := if 1 < ip_portion.length then joinColon ip_portion
                else ip_portion.flatten
  if is_ip ip_str then .ok ip_str else .error ()

/-- Python str.lower for the ASCII names used by the kick action. -/
def lowerStr (s : List Char) : List Char := s.map Char.toLower

/-- One ovn-appctl invocation: the target daemon and the argument tuple. -/
structure AppctlCall where
  target : List Char
  args : List (List Char)
deriving DecidableEq

/-- Embedding of cluster.py kick_server (underscore-prefixed in the source).
The ok value is the single ovn-appctl command issued; the error value models
the ValueError raised before any command is issued. -/
def kick_server (cluster server_id : List Char) :
    Except (List Char) AppctlCall :=
  if lowerStr cluster = "southbound".data then
    .ok ⟨"ovnsb_db".data,
         ["cluster/kick".data, "OVN_Southbound".data, server_id]⟩
  else if lowerStr cluster = "northbound".data then
    .ok ⟨"ovnnb_db".data,
         ["cluster/kick".data, "OVN_Northbound".data, server_id]⟩
  else
    .error "Unexpected value of cluster parameter".data

/-- Values of the unit_map dictionary produced by format_cluster_status:
either a single server id for a unit key, or the list of unknown server ids
under the UNKNOWN key. -/
inductive MapVal where
  | id (sid : List Char)
  | unknown (sids : List (List Char))
deriving DecidableEq

/-- Python dict assignment d[k] = v on an insertion-ordered association
list: an existing key keeps its position and gets the new value, a fresh key
is appended at the end. -/
def dictInsert (k : List Char) (v : MapVal) :
    List (List Char × MapVal) → List (List Char × MapVal)
  | [] => [(k, v)]
  | (k2, v2) :: rest =>
    if k2 = k then (k2, v) :: rest else (k2, v2) :: dictInsert k v rest

/-- The inner for-loop of format_cluster_status: scan the unit/ip table in
order and return the first unit whose ip equals the member address. -/
def findUnitFor (addr : List Char) :
    List (List Char × List Char) → Option (List Char)
  | [] => none
  | (unit, ip) :: rest => if addr = ip then some unit else findUnitFor addr rest

/-- The outer for-loop of format_cluster_status, threading the
mapped_servers dictionary and the unknown_servers list.  A parsing failure
of any server url propagates as the error. -/
def formatServersLoop (is_ip : List Char → Bool)
    (cluster_ip_map : List (List Char × List Char)) :
    List (List Char × List Char) → List (List Char × MapVal) →
    List (List Char) →
    Except Unit (List (List Char × MapVal) × List (List Char))
  | [], mapped, unknown => .ok (mapped, unknown)
  | (server_id, server_url) :: rest, mapped, unknown =>
    match url_to_ip is_ip server_url with
    | .error e => .error e
    | .ok member_address =>
      match findUnitFor member_address cluster_ip_map with
      | some unit =>
        formatServersLoop is_ip cluster_ip_map rest
          (dictInsert unit (.id server_id) mapped) unknown
      | none =>
        formatServersLoop is_ip cluster_ip_map rest mapped
          (unknown ++ [server_id])

/-- Embedding of cluster.py format_cluster_status restricted to the
unit_map entry it computes (the rest of the returned dictionary is the
yaml rendering of the status, unchanged by the function). -/
def format_cluster_status (is_ip : List Char → Bool)
    (servers : List (List Char × List Char))
    (cluster_ip_map : List (List Char × List Char)) :
    Except Unit (List (List Char × MapVal)) :=
  match formatServersLoop is_ip cluster_ip_map servers [] [] with
  | .error e => .error e
  | .ok (mapped_servers, unknown_servers) =>
    .ok (if unknown_servers = [] then mapped_servers
         else dictInsert "UNKNOWN".data (.unknown unknown_servers)
                mapped_servers)

/-! Embedding of lib/charm/openstack/ovn_central.py -/

/-- Class attribute min_election_timer of BaseOVNCentralCharm (seconds). -/
def min_election_timer : Nat := 1

/-- Class attribute max_election_timer of BaseOVNCentralCharm (seconds). -/
def max_election_timer : Nat := 60

/-- The change_timer computation inside configure_ovsdb_election_timer:
change_select (change_op cur 2) tgt, where increasing uses multiplication
and min, and decreasing uses floor division and max.  The direction is
fixed once, before the loop. -/
def change_timer (increase : Bool) (cur tgt : Nat) : Nat :=
  if increase then min (cur * 2) tgt else max (cur / 2) tgt

/-- The while-loop of configure_ovsdb_election_timer.  statusAt i is the
result of the i-th cluster_status re-query (query 0 being the initial one
issued before the loop); the returned list is the sequence of timer values
passed to ovn-appctl cluster/change-election-timer.  The loop need not
terminate for arbitrary oracles, so it is embedded with explicit fuel. -/
def changeLoop (statusAt : Nat → Option OVNClusterStatus) :
    Nat → Nat → Option OVNClusterStatus → Bool → Nat → Nat → List Nat
  | 0, _, _, _, _, _ => []
  | fuel + 1, i, status, increase, cur, tgt =>
    match status with
    | none => []
    | some st =>
      if st.is_cluster_leader ∧ st.election_timer ≠ tgt then
        change_timer increase cur tgt ::
          changeLoop statusAt fuel (i + 1) (statusAt i) increase
            (change_timer increase cur tgt) tgt
      else []

/-- Outcome of configure_ovsdb_election_timer: the ValueError raised on an
invalid db argument, the logged rejection of an out-of-range target, or the
list of election-timer change commands issued. -/
inductive ConfigureResult where
  | valueError
  | rejected
  | issued (cmds : List Nat)
deriving DecidableEq

/-- Embedding of BaseOVNCentralCharm.configure_ovsdb_election_timer.
tgt_timer is in seconds and converted to milliseconds after validation;
statusAt is the cluster_status oracle. -/
def configure_ovsdb_election_timer (statusAt : Nat → Option OVNClusterStatus)
    (fuel : Nat) (db : List Char) (tgt_timer : Nat) : ConfigureResult :=
  if db ≠ "nb".data ∧ db ≠ "sb".data then .valueError
  else if tgt_timer > max_election_timer ∨ tgt_timer < min_election_timer then
    .rejected
  else
    let tgt := tgt_timer * 1000
    match statusAt 0 with
    | none => .issued []
    | some st =>
      if st.is_cluster_leader then
        let cur := st.election_timer
        if tgt = cur then .issued []
        else .issued (changeLoop statusAt fuel 1 (some st) (tgt > cur) cur tgt)
      else .issued []

/-- Cluster-status oracle answering the i-th query from a list of timer
values, always reporting leadership; used to express runs in which the unit
stays leader and every re-query reflects the previously issued value. -/
def listOracle (l : List Nat) : Nat → Option OVNClusterStatus :=
  fun i => (l[i]?).map fun v =>
    { is_cluster_leader := true, election_timer := v, servers := [] }

/-- Embedding of one ovn-appctl cluster/leave invocation outcome: ok on
exit status zero, error modelling subprocess.CalledProcessError. -/
def ovn_appctl_result (ok : Bool) : Except Unit Unit :=
  if ok then .ok () else .error ()

/-- Embedding of BaseOVNCentralCharm.leave_cluster.  sbOk and nbOk give the
outcomes of the southbound and northbound cluster/leave commands; the result
is the ordered list of commands attempted together with the ERROR log
messages emitted, and the function is total: the only exception the two
commands raise is caught by the surrounding try/except blocks. -/
def leave_cluster (sbOk nbOk : Bool) :
    List AppctlCall × List (List Char) :=
  let sbCall : AppctlCall :=
    ⟨"ovnsb_db".data, ["cluster/leave".data, "OVN_Southbound".data]⟩
  let nbCall : AppctlCall :=
    ⟨"ovnnb_db".data, ["cluster/leave".data, "OVN_Northbound".data]⟩
  let sbLog := match ovn_appctl_result sbOk with
    | .ok _ => []
    | .error _ => ["Failed to leave Southbound cluster".data]
  let nbLog := match ovn_appctl_result nbOk with
    | .ok _ => []
    | .error _ => ["Failed to leave Northbound cluster".data]
  ([sbCall, nbCall], sbLog ++ nbLog)

/-- Embedding of BaseOVNCentralCharm.join_cluster.  pathExists is the
os.path.exists oracle; none means no command was run and no state changed,
some cmd is the single ovsdb-tool invocation performed. -/
def join_cluster (pathExists : List Char → Bool) (release : List Char)
    (db_file schema_name : List Char)
    (local_conn remote_conn : List (List Char)) :
    Option (List (List Char)) :=
  let absolute_path :=
    (if release = "train".data then "/var/lib/openvswitch/".data
     else "/var/lib/ovn/".data) ++ db_file
  if pathExists absolute_path then none
  else some (["ovsdb-tool".data, "join-cluster".data, absolute_path,
              schema_name] ++ local_conn ++ remote_conn)

/-- Embedding of BaseOVNCentralCharm.is_server_in_cluster: true when some
server entry has a connection url starting with ssl:<server_ip>:. -/
def is_server_in_cluster (server_ip : List Char)
    (cluster_status : OVNClusterStatus) : Bool :=
  cluster_status.servers.any fun server =>
    List.isPrefixOf ("ssl:".data ++ server_ip ++ [':']) server.2

/-- One cluster-status poll inside wait_for_server_leave.  The graceful
cluster_status helper returns None while ovsdb-server is not ready; passing
that None to is_server_in_cluster dereferences None.servers, modelled as the
error value (AttributeError). -/
def pollCluster (statusOpt : Option OVNClusterStatus) (server_ip : List Char) :
    Except Unit Bool :=
  match statusOpt with
  | none => .error ()
  | some st => .ok (is_server_in_cluster server_ip st)

/-- The while-loop of wait_for_server_leave.  sbAt k and nbAt k are the
southbound and northbound cluster_status answers at iteration k; the ok
result carries the returned boolean and, per executed iteration, which of
the two clusters were polled.  The loop runs while timer < timeout with
timer advancing by the tick of 5 seconds; the structural fuel argument is
instantiated with timeout, which bounds the iteration count. -/
def waitGo (sbAt nbAt : Nat → Option OVNClusterStatus) (server_ip : List Char)
    (timeout : Nat) :
    Nat → Nat → Nat → Bool → Bool → Except Unit (Bool × List (Bool × Bool))
  | 0, _, _, _, _ => .ok (false, [])
  | fuel + 1, k, timer, inSb, inNb =>
    if timer < timeout then
      match (if inSb then pollCluster (sbAt k) server_ip else .ok inSb) with
      | .error e => .error e
      | .ok inSb2 =>
        match (if inNb then pollCluster (nbAt k) server_ip else .ok inNb) with
        | .error e => .error e
        | .ok inNb2 =>
          if !inSb2 && !inNb2 then .ok (true, [(inSb, inNb)])
          else
            match waitGo sbAt nbAt server_ip timeout fuel (k + 1) (timer + 5)
                inSb2 inNb2 with
            | .error e => .error e
            | .ok (b, polls) => .ok (b, (inSb, inNb) :: polls)
    else .ok (false, [])

/-- Embedding of BaseOVNCentralCharm.wait_for_server_leave. -/
def wait_for_server_leave (sbAt nbAt : Nat → Option OVNClusterStatus)
    (server_ip : List Char) (timeout : Nat) :
    Except Unit (Bool × List (Bool × Bool)) :=
  waitGo sbAt nbAt server_ip timeout timeout 0 0 true true

/-- Whether, per the per-cluster short-circuit chain, a server is still
listed by the cluster at the start of iteration k: every unit starts
presumed present, and once a poll reports it absent it stays absent. -/
def stillListed (statusAt : Nat → OVNClusterStatus) (server_ip : List Char) :
    Nat → Bool
  | 0 => true
  | k + 1 => stillListed statusAt server_ip k &&
      is_server_in_cluster server_ip (statusAt k)

/-! Supporting lemmas about colon splitting and joining -/

theorem splitOnColon_ne_nil (l : List Char) : splitOnColon l ≠ [] := by
  cases l with
  | nil => simp [splitOnColon]
  | cons c cs =>
    simp only [splitOnColon]
    split
    · simp
    · split <;> simp

theorem splitOnColon_no_colon (l : List Char) (h : ':' ∉ l) :
    splitOnColon l = [l] := by
  induction l with
  | nil => rfl
  | cons c cs ih =>
    simp only [List.mem_cons, not_or] at h
    simp only [splitOnColon, if_neg (Ne.symm h.1), ih h.2]

theorem splitOnColon_append (xs ys : List Char) (h : ':' ∉ xs) :
    splitOnColon (xs ++ ':' :: ys) = xs :: splitOnColon ys := by
  induction xs with
  | nil => simp [splitOnColon]
  | cons c cs ih =>
    simp only [List.mem_cons, not_or] at h
    simp only [List.cons_append, splitOnColon, if_neg (Ne.symm h.1),
      List.append_eq]
    rw [ih h.2]

theorem splitOnColon_concat (addr port : List Char) (h : ':' ∉ port) :
    splitOnColon (addr ++ ':' :: port) = splitOnColon addr ++ [port] := by
  induction addr with
  | nil => simp [splitOnColon, splitOnColon_no_colon port h]
  | cons c cs ih =>
    by_cases hc : c = ':'
    · subst hc
      simp [splitOnColon, ih]
    · simp only [List.cons_append, splitOnColon, if_neg hc, List.append_eq]
      rcases hg : splitOnColon cs with _ | ⟨g, gs⟩
      · exact absurd hg (splitOnColon_ne_nil cs)
      · rw [ih, hg]
        simp

theorem joinColon_splitOnColon (l : List Char) :
    joinColon (splitOnColon l) = l := by
  induction l with
  | nil => rfl
  | cons c cs ih =>
    by_cases hc : c = ':'
    · subst hc
      simp only [splitOnColon, if_pos rfl]
      rcases hg : splitOnColon cs with _ | ⟨g, gs⟩
      · exact absurd hg (splitOnColon_ne_nil cs)
      · rw [hg] at ih
        simp [joinColon, ih]
    · simp only [splitOnColon, if_neg hc]
      rcases hg : splitOnColon cs with _ | ⟨g, gs⟩
      · exact absurd hg (splitOnColon_ne_nil cs)
      · rw [hg] at ih
        cases gs with
        | nil => simpa [joinColon] using congrArg (c :: ·) ih
        | cons g2 gs2 => simpa [joinColon] using congrArg (c :: ·) ih

theorem dropLast_append_singleton {α : Type} (l : List α) (a : α) :
    (l ++ [a]).dropLast = l := by
  simp

/-- Claim C8: for every connection string scheme:addr:port in which the
scheme and port carry no colon (in particular ssl:ipv4:port and
ssl:ipv6:port with the IPv6 groups inline), address extraction by url_to_ip
returns exactly the original address: the first colon-delimited token is
treated as the scheme, the last as the port, and everything in between is
rejoined, so both IPv4 and colon-bearing IPv6 addresses round-trip. -/
theorem url_to_ip_roundtrip (is_ip : List Char → Bool)
    (scheme addr port : List Char) (hs : ':' ∉ scheme) (hp : ':' ∉ port)
    (hip : is_ip addr = true) :
    url_to_ip is_ip (scheme ++ ':' :: (addr ++ ':' :: port)) = .ok addr := by
  have hsplit : splitOnColon (scheme ++ ':' :: (addr ++ ':' :: port)) =
      scheme :: (splitOnColon addr ++ [port]) := by
    rw [splitOnColon_append _ _ hs, splitOnColon_concat _ _ hp]
  have hportion :
      ((splitOnColon (scheme ++ ':' :: (addr ++ ':' :: port))).drop 1).dropLast
        = splitOnColon addr := by
    rw [hsplit]
    simp [dropLast_append_singleton]
  unfold url_to_ip
  rw [hportion]
  rcases hg : splitOnColon addr with _ | ⟨g, gs⟩
  · exact absurd hg (splitOnColon_ne_nil addr)
  · have hjoin := joinColon_splitOnColon addr
    rw [hg] at hjoin
    cases gs with
    | nil =>
      simp only [joinColon] at hjoin
      subst hjoin
      simp [hip]
    | cons g2 gs2 =>
      simp [hjoin, hip]

/-- Witness for url_to_ip_roundtrip at the IPv4 instance
ssl:10.0.0.1:6644 and the IPv6 instance ssl:2001:db8::1:6644. -/
theorem url_to_ip_roundtrip_witness :
    (':' ∉ "ssl".data) ∧ (':' ∉ "6644".data) ∧
    ((fun _ => true) "10.0.0.1".data = true) ∧
    url_to_ip (fun _ => true)
      ("ssl".data ++ ':' :: ("10.0.0.1".data ++ ':' :: "6644".data)) =
      .ok "10.0.0.1".data ∧
    url_to_ip (fun _ => true)
      ("ssl".data ++ ':' :: ("2001:db8::1".data ++ ':' :: "6644".data)) =
      .ok "2001:db8::1".data :=
  ⟨by decide, by decide, rfl,
   url_to_ip_roundtrip (fun _ => true) "ssl".data "10.0.0.1".data "6644".data
     (by decide) (by decide) rfl,
   url_to_ip_roundtrip (fun _ => true) "ssl".data "2001:db8::1".data
     "6644".data (by decide) (by decide) rfl⟩

/-- Claim C3: leave_cluster attempts the southbound removal first and the
northbound removal second for every combination of command outcomes, so a
southbound failure does not prevent the northbound attempt; the operation
is total (both CalledProcessError outcomes are caught), and it emits one
ERROR log per failed attempt. -/
theorem leave_cluster_attempts_both (sbOk nbOk : Bool) :
    (leave_cluster sbOk nbOk).1 =
      [⟨"ovnsb_db".data, ["cluster/leave".data, "OVN_Southbound".data]⟩,
       ⟨"ovnnb_db".data, ["cluster/leave".data, "OVN_Northbound".data]⟩] ∧
    (leave_cluster sbOk nbOk).2.length =
      (if sbOk then 0 else 1) + (if nbOk then 0 else 1) := by
  cases sbOk <;> cases nbOk <;> exact ⟨rfl, rfl⟩

/-- Counterexample to claim C5: the cluster name SOUTHBOUND differs from
both Northbound and Southbound, yet kick_server accepts it and issues the
southbound cluster/kick command instead of raising ValueError. -/
theorem kick_server_case_cex :
    kick_server "SOUTHBOUND".data "id1".data =
      .ok ⟨"ovnsb_db".data,
           ["cluster/kick".data, "OVN_Southbound".data, "id1".data]⟩ ∧
    "SOUTHBOUND".data ≠ "Northbound".data ∧
    "SOUTHBOUND".data ≠ "Southbound".data := by
  refine ⟨by decide, by decide, by decide⟩

/-- Claim C5 (amended): kick_server raises ValueError, and issues zero
cluster/kick commands, exactly for the cluster names whose lowercase form
is neither southbound nor northbound (for example foo); comparison of the
name is case-insensitive, not literal. -/
theorem kick_server_rejects_unknown (cluster server_id : List Char) :
    (∃ msg, kick_server cluster server_id = .error msg) ↔
      (lowerStr cluster ≠ "southbound".data ∧
       lowerStr cluster ≠ "northbound".data) := by
  unfold kick_server
  by_cases hsb : lowerStr cluster = "southbound".data
  · simp [hsb]
  · by_cases hnb : lowerStr cluster = "northbound".data
    · simp [hsb, hnb]
    · simp [hsb, hnb]

/-- Claim C10: validation of the cluster name in kick_server is
case-insensitive: every string whose lowercase form is southbound issues
the southbound cluster/kick command, every string whose lowercase form is
northbound issues the northbound one, and ValueError is raised exactly when
the lowercase form is neither. -/
theorem kick_server_case_insensitive (cluster server_id : List Char) :
    (lowerStr cluster = "southbound".data →
      kick_server cluster server_id =
        .ok ⟨"ovnsb_db".data,
             ["cluster/kick".data, "OVN_Southbound".data, server_id]⟩) ∧
    (lowerStr cluster = "northbound".data →
      kick_server cluster server_id =
        .ok ⟨"ovnnb_db".data,
             ["cluster/kick".data, "OVN_Northbound".data, server_id]⟩) ∧
    (lowerStr cluster ≠ "southbound".data →
     lowerStr cluster ≠ "northbound".data →
      kick_server cluster server_id =
        .error "Unexpected value of cluster parameter".data) := by
  refine ⟨fun hsb => ?_, fun hnb => ?_, fun hsb hnb => ?_⟩
  · simp [kick_server, hsb]
  · have hsb : lowerStr cluster ≠ "southbound".data := by
      rw [hnb]; decide
    simp [kick_server, hsb, hnb]
  · simp [kick_server, hsb, hnb]

/-- Witness for kick_server_case_insensitive at SOUTHBOUND, Northbound
and foo. -/
theorem kick_server_case_insensitive_witness :
    kick_server "SOUTHBOUND".data "a".data =
      .ok ⟨"ovnsb_db".data,
           ["cluster/kick".data, "OVN_Southbound".data, "a".data]⟩ ∧
    kick_server "Northbound".data "a".data =
      .ok ⟨"ovnnb_db".data,
           ["cluster/kick".data, "OVN_Northbound".data, "a".data]⟩ ∧
    kick_server "foo".data "a".data =
      .error "Unexpected value of cluster parameter".data :=
  ⟨(kick_server_case_insensitive "SOUTHBOUND".data "a".data).1 (by decide),
   (kick_server_case_insensitive "Northbound".data "a".data).2.1 (by decide),
   (kick_server_case_insensitive "foo".data "a".data).2.2 (by decide)
     (by decide)⟩

/-- Claim C6: join_cluster is idempotent through the file-existence marker:
when the on-disk database file exists it does nothing and runs no command,
and only when the file is absent does it invoke ovsdb-tool join-cluster on
that file and schema with the local connection strings followed by all
remote connection strings. -/
theorem join_cluster_idempotence_marker (pathExists : List Char → Bool)
    (release db_file schema_name : List Char)
    (local_conn remote_conn : List (List Char)) :
    (pathExists ((if release = "train".data then "/var/lib/openvswitch/".data
        else "/var/lib/ovn/".data) ++ db_file) = true →
      join_cluster pathExists release db_file schema_name local_conn
        remote_conn = none) ∧
    (pathExists ((if release = "train".data then "/var/lib/openvswitch/".data
        else "/var/lib/ovn/".data) ++ db_file) = false →
      join_cluster pathExists release db_file schema_name local_conn
        remote_conn =
        some (["ovsdb-tool".data, "join-cluster".data,
               (if release = "train".data then "/var/lib/openvswitch/".data
                else "/var/lib/ovn/".data) ++ db_file, schema_name] ++
              local_conn ++ remote_conn)) := by
  constructor <;> intro h <;> simp [join_cluster, h]

/-- Witness for join_cluster_idempotence_marker: with the file present no
command runs, with it absent the join command runs. -/
theorem join_cluster_idempotence_marker_witness :
    join_cluster (fun _ => true) "ussuri".data "ovnnb_db.db".data
      "OVN_Northbound".data ["ssl:10.0.0.1:6643".data]
      ["ssl:10.0.0.2:6643".data] = none ∧
    join_cluster (fun _ => false) "ussuri".data "ovnnb_db.db".data
      "OVN_Northbound".data ["ssl:10.0.0.1:6643".data]
      ["ssl:10.0.0.2:6643".data] =
      some (["ovsdb-tool".data, "join-cluster".data,
             "/var/lib/ovn/".data ++ "ovnnb_db.db".data,
             "OVN_Northbound".data] ++ ["ssl:10.0.0.1:6643".data] ++
            ["ssl:10.0.0.2:6643".data]) := by
  constructor
  · exact (join_cluster_idempotence_marker (fun _ => true) "ussuri".data
      "ovnnb_db.db".data "OVN_Northbound".data ["ssl:10.0.0.1:6643".data]
      ["ssl:10.0.0.2:6643".data]).1 rfl
  · have h := (join_cluster_idempotence_marker (fun _ => false) "ussuri".data
      "ovnnb_db.db".data "OVN_Northbound".data ["ssl:10.0.0.1:6643".data]
      ["ssl:10.0.0.2:6643".data]).2 rfl
    simpa using h

/-- Claim C4: for every target election timer strictly above
max_election_timer = 60 seconds or strictly below min_election_timer = 1
second, configure_ovsdb_election_timer reports the rejection and performs
zero command invocations independently of the cluster-status oracle (so the
status is never consulted and the value never clamped), while the boundary
values 60 and 1 themselves pass validation on both databases. -/
theorem configure_election_timer_bounds
    (statusAt : Nat → Option OVNClusterStatus) (fuel tgt_timer : Nat) :
    (max_election_timer < tgt_timer ∨ tgt_timer < min_election_timer →
      configure_ovsdb_election_timer statusAt fuel "nb".data tgt_timer =
        .rejected ∧
      configure_ovsdb_election_timer statusAt fuel "sb".data tgt_timer =
        .rejected) ∧
    configure_ovsdb_election_timer statusAt fuel "nb".data
      max_election_timer ≠ .rejected ∧
    configure_ovsdb_election_timer statusAt fuel "sb".data
      max_election_timer ≠ .rejected ∧
    configure_ovsdb_election_timer statusAt fuel "nb".data
      min_election_timer ≠ .rejected ∧
    configure_ovsdb_election_timer statusAt fuel "sb".data
      min_election_timer ≠ .rejected := by
  have hinrange : ∀ db : List Char, ¬(db ≠ "nb".data ∧ db ≠ "sb".data) →
      ∀ t, ¬(t > max_election_timer ∨ t < min_election_timer) →
      configure_ovsdb_election_timer statusAt fuel db t ≠ .rejected := by
    intro db hdb t ht
    unfold configure_ovsdb_election_timer
    rw [if_neg hdb, if_neg ht]
    rcases statusAt 0 with _ | st
    · simp
    · simp only []
      by_cases hl : st.is_cluster_leader
      · by_cases he : t * 1000 = st.election_timer <;> simp [hl, he]
      · simp [hl]
  refine ⟨fun h => ?_, ?_, ?_, ?_, ?_⟩
  · have hrej : ∀ db : List Char, ¬(db ≠ "nb".data ∧ db ≠ "sb".data) →
        configure_ovsdb_election_timer statusAt fuel db tgt_timer =
          .rejected := by
      intro db hdb
      unfold configure_ovsdb_election_timer
      rw [if_neg hdb, if_pos h]
    exact ⟨hrej _ (by simp), hrej _ (by simp)⟩
  · exact hinrange "nb".data (by simp) max_election_timer (by decide)
  · exact hinrange "sb".data (by simp) max_election_timer (by decide)
  · exact hinrange "nb".data (by simp) min_election_timer (by decide)
  · exact hinrange "sb".data (by simp) min_election_timer (by decide)

/-- Witness for configure_election_timer_bounds at target 61 with an
arbitrary concrete oracle. -/
theorem configure_election_timer_bounds_witness :
    (max_election_timer < 61 ∨ (61 : Nat) < min_election_timer) ∧
    configure_ovsdb_election_timer (fun _ => none) 0 "nb".data 61 =
      .rejected ∧
    configure_ovsdb_election_timer (fun _ => none) 0 "sb".data 61 =
      .rejected :=
  ⟨Or.inl (by decide),
   ((configure_election_timer_bounds (fun _ => none) 0 61).1
      (Or.inl (by decide))).1,
   ((configure_election_timer_bounds (fun _ => none) 0 61).1
      (Or.inl (by decide))).2⟩

/-- Claim C1: while the unit stays cluster leader and the timer has not
reached the target, each loop iteration of configure_ovsdb_election_timer
issues min (current * 2) target when increasing and max (current / 2)
target (floor division) when decreasing; consequently, on a run in which
every status re-query reflects the previously issued value, current 1000 ms
with target 42000 ms issues exactly 2000, 4000, 8000, 16000, 32000, 42000
and current 42000 ms with target 1000 ms issues exactly 21000, 10500, 5250,
2625, 1312, 1000, stopping when the timer equals the target. -/
theorem configure_election_timer_convergence :
    (∀ (statusAt : Nat → Option OVNClusterStatus) (fuel i : Nat)
       (st : OVNClusterStatus) (increase : Bool) (cur tgt : Nat),
      st.is_cluster_leader = true → st.election_timer ≠ tgt →
      changeLoop statusAt (fuel + 1) i (some st) increase cur tgt =
        (if increase then min (cur * 2) tgt else max (cur / 2) tgt) ::
          changeLoop statusAt fuel (i + 1) (statusAt i) increase
            (if increase then min (cur * 2) tgt else max (cur / 2) tgt)
            tgt) ∧
    configure_ovsdb_election_timer
      (listOracle [1000, 2000, 4000, 8000, 16000, 32000, 42000]) 20
      "nb".data 42 =
      .issued [2000, 4000, 8000, 16000, 32000, 42000] ∧
    configure_ovsdb_election_timer
      (listOracle [42000, 21000, 10500, 5250, 2625, 1312, 1000]) 20
      "sb".data 1 =
      .issued [21000, 10500, 5250, 2625, 1312, 1000] := by
  refine ⟨?_, by decide, by decide⟩
  intro statusAt fuel i st increase cur tgt hl hne
  simp [changeLoop, hl, hne, change_timer]

/-- Witness for configure_election_timer_convergence: one leader iteration
away from the target issues the min-clipped doubling step. -/
theorem configure_election_timer_convergence_witness :
    changeLoop (fun _ => none) 1 0
      (some { is_cluster_leader := true, election_timer := 5, servers := [] })
      true 5 7 = [7] := by
  have h := configure_election_timer_convergence.1 (fun _ => none) 0 0
    { is_cluster_leader := true, election_timer := 5, servers := [] }
    true 5 7 rfl (by decide)
  simpa [changeLoop] using h

/-- Loop invariant of wait_for_server_leave under total (always parsed)
status oracles: starting at iteration k with both flags equal to the
short-circuit chains, the loop returns without raising, returns true
exactly when some executed iteration sees both chains cleared, and polls
each cluster at an iteration exactly when its chain was still listed. -/
theorem waitGo_spec (sb nb : Nat → OVNClusterStatus) (ip : List Char)
    (timeout : Nat) :
    ∀ (fuel k : Nat) (inSb inNb : Bool),
      timeout - 5 * k ≤ fuel →
      inSb = stillListed sb ip k → inNb = stillListed nb ip k →
      ∃ b polls,
        waitGo (fun i => some (sb i)) (fun i => some (nb i)) ip timeout fuel
            k (5 * k) inSb inNb = .ok (b, polls) ∧
        (b = true ↔ ∃ j, k ≤ j ∧ 5 * j < timeout ∧
          stillListed sb ip (j + 1) = false ∧
          stillListed nb ip (j + 1) = false) ∧
        (∀ m, m < polls.length →
          polls[m]? = some (stillListed sb ip (k + m),
                            stillListed nb ip (k + m))) := by
  intro fuel
  induction fuel with
  | zero =>
    intro k inSb inNb hfuel hsb hnb
    refine ⟨false, [], rfl, ?_, ?_⟩
    · simp only [Bool.false_eq_true, false_iff]
      rintro ⟨j, hjk, hj5, -, -⟩
      omega
    · intro m hm
      simp at hm
  | succ fuel ih =>
    intro k inSb inNb hfuel hsb hnb
    subst hsb; subst hnb
    by_cases h5 : 5 * k < timeout
    · have e1 : (if stillListed sb ip k then
          pollCluster (some (sb k)) ip else .ok (stillListed sb ip k)) =
          (.ok (stillListed sb ip (k + 1)) : Except Unit Bool) := by
        cases hS : stillListed sb ip k <;>
          simp [pollCluster, stillListed, hS]
      have e2 : (if stillListed nb ip k then
          pollCluster (some (nb k)) ip else .ok (stillListed nb ip k)) =
          (.ok (stillListed nb ip (k + 1)) : Except Unit Bool) := by
        cases hN : stillListed nb ip k <;>
          simp [pollCluster, stillListed, hN]
      by_cases hboth : stillListed sb ip (k + 1) = false ∧
          stillListed nb ip (k + 1) = false
      · obtain ⟨hS1, hN1⟩ := hboth
        refine ⟨true, [(stillListed sb ip k, stillListed nb ip k)], ?_, ?_, ?_⟩
        · simp only [waitGo, if_pos h5, e1, e2, hS1, hN1]
          rfl
        · simp only [true_iff]
          exact ⟨k, le_refl k, h5, hS1, hN1⟩
        · intro m hm
          simp only [List.length_cons, List.length_nil] at hm
          interval_cases m
          simp
      · have hcond : (!(stillListed sb ip (k + 1)) &&
            !(stillListed nb ip (k + 1))) = false := by
          cases hS1 : stillListed sb ip (k + 1)
          · cases hN1 : stillListed nb ip (k + 1)
            · exact absurd ⟨hS1, hN1⟩ hboth
            · rfl
          · rfl
        have hfuel2 : timeout - 5 * (k + 1) ≤ fuel := by omega
        obtain ⟨b, polls, heq, hiff, hpolls⟩ :=
          ih (k + 1) (stillListed sb ip (k + 1)) (stillListed nb ip (k + 1))
            hfuel2 rfl rfl
        have htimer : 5 * k + 5 = 5 * (k + 1) := by omega
        refine ⟨b, (stillListed sb ip k, stillListed nb ip k) :: polls,
          ?_, ?_, ?_⟩
        · simp only [waitGo, if_pos h5, e1, e2, hcond, htimer, heq]
          rfl
        · rw [hiff]
          constructor
          · rintro ⟨j, hj, hj5, hjs, hjn⟩
            exact ⟨j, by omega, hj5, hjs, hjn⟩
          · rintro ⟨j, hj, hj5, hjs, hjn⟩
            rcases Nat.eq_or_lt_of_le hj with hkj | hkj
            · exact absurd ⟨hkj ▸ hjs, hkj ▸ hjn⟩ hboth
            · exact ⟨j, by omega, hj5, hjs, hjn⟩
        · intro m hm
          cases m with
          | zero => simp
          | succ m =>
            have hm2 : m < polls.length := by
              simpa using hm
            have hpm := hpolls m hm2
            have harith : k + 1 + m = k + (m + 1) := by omega
            simpa [harith] using hpm
    · refine ⟨false, [], ?_, ?_, ?_⟩
      · simp only [waitGo, if_neg h5]
      · simp only [Bool.false_eq_true, false_iff]
        rintro ⟨j, hjk, hj5, -, -⟩
        omega
      · intro m hm
        simp at hm

/-- Counterexample to claim C2: when a cluster-status query reports the
server as not ready (None), wait_for_server_leave dereferences
None.servers and raises (AttributeError) instead of never raising. -/
theorem wait_for_server_leave_raises_cex :
    wait_for_server_leave (fun _ => none)
      (fun _ => some { is_cluster_leader := true, election_timer := 1000,
                       servers := [] })
      "10.0.0.1".data 30 = .error () := by
  decide

/-- Claim C2 (amended): provided every cluster-status query consulted
returns a parsed status, wait_for_server_leave never raises; it returns
true exactly when some iteration within the deadline observes both the
southbound and the northbound cluster no longer listing the address (and
false on timeout otherwise); at each executed iteration a cluster is polled
exactly when it still listed the address at every earlier poll, so a
cleared cluster is not re-polled while the other continues to be polled;
and when both first polls already clear it returns true after that single
iteration, for every timeout.  When a consulted query returns a not-ready
(None) status the call raises instead. -/
theorem wait_for_server_leave_spec (sb nb : Nat → OVNClusterStatus)
    (ip : List Char) (timeout : Nat) :
    (∃ b polls,
      wait_for_server_leave (fun i => some (sb i)) (fun i => some (nb i))
          ip timeout = .ok (b, polls) ∧
      (b = true ↔ ∃ j, 5 * j < timeout ∧
        stillListed sb ip (j + 1) = false ∧
        stillListed nb ip (j + 1) = false) ∧
      (∀ m, m < polls.length →
        polls[m]? = some (stillListed sb ip m, stillListed nb ip m))) ∧
    (0 < timeout → is_server_in_cluster ip (sb 0) = false →
     is_server_in_cluster ip (nb 0) = false →
      wait_for_server_leave (fun i => some (sb i)) (fun i => some (nb i))
          ip timeout = .ok (true, [(true, true)])) := by
  constructor
  · obtain ⟨b, polls, heq, hiff, hpolls⟩ :=
      waitGo_spec sb nb ip timeout timeout 0 true true (by omega) rfl rfl
    refine ⟨b, polls, ?_, ?_, ?_⟩
    · simpa [wait_for_server_leave] using heq
    · rw [hiff]
      constructor
      · rintro ⟨j, -, hj5, hjs, hjn⟩
        exact ⟨j, hj5, hjs, hjn⟩
      · rintro ⟨j, hj5, hjs, hjn⟩
        exact ⟨j, Nat.zero_le j, hj5, hjs, hjn⟩
    · intro m hm
      simpa using hpolls m hm
  · intro ht hsb0 hnb0
    cases timeout with
    | zero => omega
    | succ t =>
      simp [wait_for_server_leave, waitGo, pollCluster, hsb0, hnb0]

/-- Witness for wait_for_server_leave_spec: with both clusters already not
listing the address, the call returns true after one iteration. -/
theorem wait_for_server_leave_spec_witness :
    wait_for_server_leave
      (fun _ => some { is_cluster_leader := true, election_timer := 1000,
                       servers := [] })
      (fun _ => some { is_cluster_leader := true, election_timer := 1000,
                       servers := [] })
      "10.0.0.1".data 30 = .ok (true, [(true, true)]) :=
  (wait_for_server_leave_spec
    (fun _ => { is_cluster_leader := true, election_timer := 1000,
                servers := [] })
    (fun _ => { is_cluster_leader := true, election_timer := 1000,
                servers := [] })
    "10.0.0.1".data 30).2 (by decide) (by decide) (by decide)

/-- When the trailing port carries no colon, a colon-terminated needle is a
prefix of addr:port exactly when it is the whole address followed by the
separator, or a colon-terminated prefix of the address itself. -/
theorem needle_splits_at_colon (addr : List Char) :
    ∀ ip port : List Char, ':' ∉ port →
      ((ip ++ [':']) <+: (addr ++ ':' :: port) ↔
        ip = addr ∨ (ip ++ [':']) <+: addr) := by
  induction addr with
  | nil =>
    intro ip port hp
    cases ip with
    | nil => simp [List.cons_prefix_cons]
    | cons c ip2 =>
      simp only [List.nil_append, List.cons_append, List.cons_prefix_cons]
      constructor
      · rintro ⟨rfl, hpre⟩
        exact absurd (hpre.subset (by simp)) hp
      · rintro (h | h)
        · exact absurd h (by simp)
        · rw [List.prefix_nil] at h
          simp at h
  | cons a addr2 ih =>
    intro ip port hp
    cases ip with
    | nil => simp [List.cons_prefix_cons]
    | cons c ip2 =>
      simp only [List.cons_append, List.cons_prefix_cons, List.cons.injEq]
      rw [ih ip2 port hp]
      tauto

/-- Counterexample to claim C9: with the well-formed IPv6 server entry
ssl:2001:db8::1:2:6644 (address 2001:db8::1:2, port 6644), membership of
server_ip 2001:db8::1 is reported true although the parsed IP of the entry
differs from server_ip, because the code matches on the string prefix
ssl:2001:db8::1: rather than on parsed-IP equality. -/
theorem is_server_in_cluster_parsed_ip_cex :
    is_server_in_cluster "2001:db8::1".data
      { is_cluster_leader := true, election_timer := 0,
        servers := [("aa11".data, "ssl:2001:db8::1:2:6644".data)] } = true ∧
    url_to_ip (fun _ => true) "ssl:2001:db8::1:2:6644".data =
      .ok "2001:db8::1:2".data ∧
    "2001:db8::1:2".data ≠ "2001:db8::1".data := by
  refine ⟨by decide, by decide, by decide⟩

/-- Claim C9 (amended): is_server_in_cluster is a pure predicate that, over
well-formed connection strings ssl:addr:port (colon-free port, IPv4 or
bracket-free IPv6 address), returns true exactly when some server entry
has address equal to server_ip or address beginning with server_ip
followed by a colon; the second disjunct is the prefix false positive that
keeps this from coinciding with parsed-IP equality for IPv6. -/
theorem is_server_in_cluster_spec (server_ip : List Char) (leader : Bool)
    (et : Nat) (entries : List (List Char × List Char × List Char))
    (hport : ∀ e ∈ entries, ':' ∉ e.2.2) :
    is_server_in_cluster server_ip
      { is_cluster_leader := leader, election_timer := et,
        servers := entries.map fun e =>
          (e.1, "ssl:".data ++ e.2.1 ++ ':' :: e.2.2) } = true ↔
      ∃ e ∈ entries, e.2.1 = server_ip ∨ (server_ip ++ [':']) <+: e.2.1 := by
  unfold is_server_in_cluster
  rw [List.any_eq_true]
  constructor
  · rintro ⟨s, hs, hpre⟩
    rw [List.mem_map] at hs
    obtain ⟨e, he, rfl⟩ := hs
    rw [List.isPrefixOf_iff_prefix] at hpre
    have hpre2 : (server_ip ++ [':']) <+: (e.2.1 ++ ':' :: e.2.2) :=
      (List.prefix_append_right_inj "ssl:".data).mp
        (by simpa [List.append_assoc] using hpre)
    rcases (needle_splits_at_colon e.2.1 server_ip e.2.2 (hport e he)).mp hpre2
      with h | h
    · exact ⟨e, he, Or.inl h.symm⟩
    · exact ⟨e, he, Or.inr h⟩
  · rintro ⟨e, he, hcase⟩
    refine ⟨(e.1, "ssl:".data ++ e.2.1 ++ ':' :: e.2.2),
      List.mem_map_of_mem _ he, ?_⟩
    rw [List.isPrefixOf_iff_prefix]
    have hpre2 : (server_ip ++ [':']) <+: (e.2.1 ++ ':' :: e.2.2) :=
      (needle_splits_at_colon e.2.1 server_ip e.2.2 (hport e he)).mpr
        (by rcases hcase with h | h
            · exact Or.inl h.symm
            · exact Or.inr h)
    have := (List.prefix_append_right_inj "ssl:".data).mpr hpre2
    simpa [List.append_assoc] using this

/-- Witness for is_server_in_cluster_spec: an IPv4 address present among
two well-formed entries is reported as a member. -/
theorem is_server_in_cluster_spec_witness :
    is_server_in_cluster "10.0.0.1".data
      { is_cluster_leader := true, election_timer := 0,
        servers := [("aa11".data, ("10.0.0.1".data, "6644".data)),
                    ("bb22".data, ("10.0.0.2".data, "6644".data))].map
          fun e => (e.1, "ssl:".data ++ e.2.1 ++ ':' :: e.2.2) } = true :=
  (is_server_in_cluster_spec "10.0.0.1".data true 0
    [("aa11".data, ("10.0.0.1".data, "6644".data)),
     ("bb22".data, ("10.0.0.2".data, "6644".data))] (by decide)).mpr
    ⟨("aa11".data, ("10.0.0.1".data, "6644".data)), by simp, Or.inl rfl⟩

/-- The entries format_cluster_status adds for matched servers, one per
row (server_id, url, parsed address) whose address is found in the unit/ip
table: the first unit with that ip, keyed by unit and valued by the
server id. -/
def matchedEntries (cluster_ip_map : List (List Char × List Char))
    (rows : List (List Char × List Char × List Char)) :
    List (List Char × MapVal) :=
  rows.filterMap fun r =>
    (findUnitFor r.2.2 cluster_ip_map).map fun u => (u, MapVal.id r.1)

/-- The server ids format_cluster_status collects for servers whose parsed
address is not in the unit/ip table, in input order. -/
def unmatchedIds (cluster_ip_map : List (List Char × List Char))
    (rows : List (List Char × List Char × List Char)) :
    List (List Char) :=
  rows.filterMap fun r =>
    if findUnitFor r.2.2 cluster_ip_map = none then some r.1 else none

theorem dictInsert_fresh (k : List Char) (v : MapVal)
    (d : List (List Char × MapVal)) (h : k ∉ d.map Prod.fst) :
    dictInsert k v d = d ++ [(k, v)] := by
  induction d with
  | nil => rfl
  | cons p rest ih =>
    simp only [List.map_cons, List.mem_cons, not_or] at h
    have hne : ¬p.1 = k := fun hh => h.1 hh.symm
    simp only [dictInsert, if_neg hne, List.cons_append]
    rw [ih h.2]

theorem findUnitFor_mem (addr : List Char)
    (m : List (List Char × List Char)) (u : List Char)
    (h : findUnitFor addr m = some u) : (u, addr) ∈ m := by
  induction m with
  | nil => simp [findUnitFor] at h
  | cons p rest ih =>
    by_cases hip : addr = p.2
    · simp only [findUnitFor, if_pos hip, Option.some.injEq] at h
      subst h
      subst hip
      exact List.mem_cons_self _ _
    · simp only [findUnitFor, if_neg hip] at h
      exact List.mem_cons_of_mem _ (ih h)

theorem nodup_keys_functional (m : List (List Char × List Char))
    (h : (m.map Prod.fst).Nodup) (u a b : List Char)
    (ha : (u, a) ∈ m) (hb : (u, b) ∈ m) : a = b := by
  induction m with
  | nil => simp at ha
  | cons p rest ih =>
    obtain ⟨k, w⟩ := p
    simp only [List.map_cons, List.nodup_cons] at h
    have hmem : ∀ x y : List Char, (x, y) ∈ rest → x ∈ rest.map Prod.fst :=
      fun x y hxy => by simpa using List.mem_map_of_mem Prod.fst hxy
    rcases List.mem_cons.mp ha with ha1 | ha1 <;>
      rcases List.mem_cons.mp hb with hb1 | hb1
    · rw [Prod.mk.injEq] at ha1 hb1
      rw [ha1.2, hb1.2]
    · rw [Prod.mk.injEq] at ha1
      exact absurd (ha1.1 ▸ hmem u b hb1) h.1
    · rw [Prod.mk.injEq] at hb1
      exact absurd (hb1.1 ▸ hmem u a ha1) h.1
    · exact ih h.2 ha1 hb1

/-- The servers for-loop of format_cluster_status, run over rows whose urls
all parse to their recorded addresses: with pairwise distinct addresses and
a unit table free of duplicate unit names, dictionary inserts always hit
fresh keys, so the loop appends the matched entries to mapped_servers and
the unmatched ids to unknown_servers, in input order. -/
theorem formatServersLoop_spec (is_ip : List Char → Bool)
    (ipMap : List (List Char × List Char))
    (hkeys : (ipMap.map Prod.fst).Nodup) :
    ∀ (rows : List (List Char × List Char × List Char))
      (mapped : List (List Char × MapVal)) (unknown : List (List Char)),
      (∀ r ∈ rows, url_to_ip is_ip r.2.1 = .ok r.2.2) →
      (rows.map fun r => r.2.2).Nodup →
      (∀ r ∈ rows, ∀ u, findUnitFor r.2.2 ipMap = some u →
        u ∉ mapped.map Prod.fst) →
      formatServersLoop is_ip ipMap (rows.map fun r => (r.1, r.2.1)) mapped
          unknown =
        .ok (mapped ++ matchedEntries ipMap rows,
             unknown ++ unmatchedIds ipMap rows) := by
  intro rows
  induction rows with
  | nil =>
    intro mapped unknown _ _ _
    simp [formatServersLoop, matchedEntries, unmatchedIds]
  | cons r rows ih =>
    intro mapped unknown hparse haddr hfresh
    have hr : url_to_ip is_ip r.2.1 = .ok r.2.2 := hparse r (by simp)
    have haddr2 : r.2.2 ∉ rows.map (fun r => r.2.2) ∧
        (rows.map fun r => r.2.2).Nodup := by
      simpa [List.nodup_cons] using haddr
    have hparse2 : ∀ r2 ∈ rows, url_to_ip is_ip r2.2.1 = .ok r2.2.2 :=
      fun r2 hr2 => hparse r2 (List.mem_cons_of_mem _ hr2)
    cases hfind : findUnitFor r.2.2 ipMap with
    | some u =>
      have hfreshu : u ∉ mapped.map Prod.fst :=
        hfresh r (List.mem_cons_self _ _) u hfind
      simp only [List.map_cons, formatServersLoop, hr, hfind]
      rw [dictInsert_fresh _ _ _ hfreshu]
      have hfresh2 : ∀ r2 ∈ rows, ∀ u2, findUnitFor r2.2.2 ipMap = some u2 →
          u2 ∉ (mapped ++ [(u, MapVal.id r.1)]).map Prod.fst := by
        intro r2 hr2 u2 hfind2
        simp only [List.map_append, List.mem_append, List.map_cons,
          List.map_nil, List.mem_singleton, not_or]
        refine ⟨hfresh r2 (List.mem_cons_of_mem _ hr2) u2 hfind2, ?_⟩
        intro hu2
        subst hu2
        have h1 := findUnitFor_mem _ _ _ hfind
        have h2 := findUnitFor_mem _ _ _ hfind2
        have := nodup_keys_functional ipMap hkeys _ _ _ h1 h2
        exact haddr2.1 (this ▸ List.mem_map_of_mem (fun r => r.2.2) hr2)
      rw [ih (mapped ++ [(u, MapVal.id r.1)]) unknown hparse2 haddr2.2
        hfresh2]
      simp [matchedEntries, unmatchedIds, hfind, List.append_assoc]
    | none =>
      have hfresh2 : ∀ r2 ∈ rows, ∀ u2, findUnitFor r2.2.2 ipMap = some u2 →
          u2 ∉ mapped.map Prod.fst :=
        fun r2 hr2 u2 hfind2 =>
          hfresh r2 (List.mem_cons_of_mem _ hr2) u2 hfind2
      simp only [List.map_cons, formatServersLoop, hr, hfind]
      rw [ih mapped (unknown ++ [r.1]) hparse2 haddr2.2 hfresh2]
      simp [matchedEntries, unmatchedIds, hfind, List.append_assoc]

theorem matchedEntries_keys (ipMap : List (List Char × List Char))
    (rows : List (List Char × List Char × List Char)) :
    ∀ p ∈ matchedEntries ipMap rows, p.1 ∈ ipMap.map Prod.fst := by
  intro p hp
  unfold matchedEntries at hp
  rw [List.mem_filterMap] at hp
  obtain ⟨r, hr, hmap⟩ := hp
  rcases Option.map_eq_some'.mp hmap with ⟨u, hfind, rfl⟩
  exact List.mem_map_of_mem Prod.fst (findUnitFor_mem _ _ _ hfind)

theorem matched_unmatched_counts (ipMap : List (List Char × List Char))
    (rows : List (List Char × List Char × List Char)) :
    (matchedEntries ipMap rows).length =
      rows.countP (fun r => (findUnitFor r.2.2 ipMap).isSome) ∧
    (unmatchedIds ipMap rows).length =
      rows.countP (fun r => (findUnitFor r.2.2 ipMap).isNone) ∧
    (matchedEntries ipMap rows).length + (unmatchedIds ipMap rows).length =
      rows.length := by
  induction rows with
  | nil => simp [matchedEntries, unmatchedIds]
  | cons r rows ih =>
    cases hfind : findUnitFor r.2.2 ipMap <;>
      simp only [matchedEntries, unmatchedIds, List.filterMap_cons, hfind,
        Option.map_none', Option.map_some', List.countP_cons,
        Option.isSome_none, Option.isSome_some, Option.isNone_none,
        Option.isNone_some, List.length_cons] at ih ⊢ <;>
      simp_all <;> omega

/-- Counterexample to claim C7: on the specification example (three
servers aa11, bb22, zz99 and a unit table covering only the first two
addresses) the unit mapping is keyed by the unit names with the member ids
as values, plus the UNKNOWN entry — there is no entry keyed by the matched
member id aa11, so the claimed member_id to unit_id direction fails. -/
theorem format_cluster_status_direction_cex :
    format_cluster_status (fun _ => true)
      [("aa11".data, "ssl:10.0.0.1:6644".data),
       ("bb22".data, "ssl:10.0.0.2:6644".data),
       ("zz99".data, "ssl:10.0.0.99:6644".data)]
      [("unit0".data, "10.0.0.1".data), ("unit1".data, "10.0.0.2".data)] =
      .ok [("unit0".data, .id "aa11".data), ("unit1".data, .id "bb22".data),
           ("UNKNOWN".data, .unknown ["zz99".data])] ∧
    "aa11".data ∉
      ([("unit0".data, MapVal.id "aa11".data),
        ("unit1".data, MapVal.id "bb22".data),
        ("UNKNOWN".data, MapVal.unknown ["zz99".data])].map Prod.fst) := by
  refine ⟨by decide, by decide⟩

/-- Claim C7 (amended): for a cluster status of N servers whose connection
urls all parse to pairwise distinct addresses and a unit/ip table with
distinct unit names (none of them UNKNOWN) matching exactly M of those
addresses, the unit mapping holds exactly the M matched entries keyed by
unit name with the member id as value (direction unit_id to member_id),
followed, when M < N, by a single UNKNOWN key holding exactly the N - M
unmatched member ids in input order; so every input server is accounted
for and none is dropped. -/
theorem format_cluster_status_unit_map (is_ip : List Char → Bool)
    (rows : List (List Char × List Char × List Char))
    (ipMap : List (List Char × List Char))
    (hparse : ∀ r ∈ rows, url_to_ip is_ip r.2.1 = .ok r.2.2)
    (haddr : (rows.map fun r => r.2.2).Nodup)
    (hkeys : (ipMap.map Prod.fst).Nodup)
    (hunk : "UNKNOWN".data ∉ ipMap.map Prod.fst) :
    format_cluster_status is_ip (rows.map fun r => (r.1, r.2.1)) ipMap =
      .ok (matchedEntries ipMap rows ++
        (if unmatchedIds ipMap rows = [] then []
         else [("UNKNOWN".data, MapVal.unknown (unmatchedIds ipMap rows))]))
      ∧
    (matchedEntries ipMap rows).length =
      rows.countP (fun r => (findUnitFor r.2.2 ipMap).isSome) ∧
    (unmatchedIds ipMap rows).length =
      rows.countP (fun r => (findUnitFor r.2.2 ipMap).isNone) ∧
    (matchedEntries ipMap rows).length + (unmatchedIds ipMap rows).length =
      rows.length := by
  have hloop := formatServersLoop_spec is_ip ipMap hkeys rows [] []
    hparse haddr (by intro r hr u hf; simp)
  have hcounts := matched_unmatched_counts ipMap rows
  refine ⟨?_, hcounts.1, hcounts.2.1, hcounts.2.2⟩
  unfold format_cluster_status
  rw [hloop]
  simp only [List.nil_append]
  by_cases hu : unmatchedIds ipMap rows = []
  · simp [hu]
  · rw [if_neg hu, if_neg hu]
    have hfreshunk : "UNKNOWN".data ∉
        (matchedEntries ipMap rows).map Prod.fst := by
      intro hmem
      rw [List.mem_map] at hmem
      obtain ⟨p, hp, hp1⟩ := hmem
      exact hunk (hp1 ▸ matchedEntries_keys ipMap rows p hp)
    rw [dictInsert_fresh _ _ _ hfreshunk]

/-- Witness for format_cluster_status_unit_map on the three-server,
two-unit example. -/
theorem format_cluster_status_unit_map_witness :
    format_cluster_status (fun _ => true)
      ([("aa11".data, ("ssl:10.0.0.1:6644".data, "10.0.0.1".data)),
        ("bb22".data, ("ssl:10.0.0.2:6644".data, "10.0.0.2".data)),
        ("zz99".data, ("ssl:10.0.0.99:6644".data, "10.0.0.99".data))].map
        fun r => (r.1, r.2.1))
      [("unit0".data, "10.0.0.1".data), ("unit1".data, "10.0.0.2".data)] =
      .ok [("unit0".data, .id "aa11".data), ("unit1".data, .id "bb22".data),
           ("UNKNOWN".data, .unknown ["zz99".data])] := by
  have h := (format_cluster_status_unit_map (fun _ => true)
    [("aa11".data, ("ssl:10.0.0.1:6644".data, "10.0.0.1".data)),
     ("bb22".data, ("ssl:10.0.0.2:6644".data, "10.0.0.2".data)),
     ("zz99".data, ("ssl:10.0.0.99:6644".data, "10.0.0.99".data))]
    [("unit0".data, "10.0.0.1".data), ("unit1".data, "10.0.0.2".data)]
    (by decide) (by decide) (by decide) (by decide)).1
  exact h.trans (by decide)

end OvnCentral
